import Mathlib

/-!
Shallow embedding of `src/kahn.py` (class `Kahn`): the priority-constrained
topological scheduler ("Kahn engine").

The state vector `x` is a list of per-node triples `(remaining constraints,
label, lifecycle)`, mirroring the numpy rows `(x[i][0], x[i][1], x[i][2])`.
All three components are integers, as in the source: `-1` marks an unset
label, and the lifecycle column uses `-1` = Blocked, `0` = Ready, `1` = Done.

Python exceptions are modelled explicitly: `np.amax`/`np.amin` on an empty
array raise `ValueError`; `assert` failure raises `AssertionError`; iterating
over `None` (the return value of `list.reverse()`, which reverses in place
and returns `None`) raises `TypeError`; indexing `x[:,0]` on the empty array
built for a 0-node graph raises `IndexError`.  Because the source mutates `x`
in place, a raised exception leaves the caller's array in its mutated state;
the `raised` constructor therefore carries the state as mutated so far.
-/

namespace KahnModel

/-- One row of the state vector `x`: `(remaining constraints, label, lifecycle)`. -/
structure Entry where
  deg : Int
  label : Int
  life : Int
deriving Repr, DecidableEq

/-- The Graph View consumed by the engine: node count, adjacency
(`adj i j = true` iff there is an edge `i → j`, i.e. `E[i,j] = 1`), and the
per-node priority used as sort key.  Priorities are floats in the source;
only their order is used, so they are embedded as integers. -/
structure Graph where
  n : Nat
  adj : Nat → Nat → Bool
  priority : Nat → Int

/-- The kind of Python exception a call ends with. -/
inductive PyError where
  | assertionError
  | typeError
  | valueError
  | indexError
deriving Repr, DecidableEq

/-- Result of a call on the in-place-mutated state vector: either a normal
return, or an exception together with the state at the moment it was raised
(the caller's array keeps the mutations made before the raise). -/
inductive PyResult (α : Type) where
  | ok (value : α)
  | raised (e : PyError) (state : List Entry)
deriving Repr, DecidableEq

/-- `x[i]` (entries are only read at indices below the length). -/
def getE (x : List Entry) (i : Nat) : Entry :=
  x.getD i ⟨0, 0, 0⟩

/-- `x[i] = e`. -/
def setE (x : List Entry) (i : Nat) (e : Entry) : List Entry :=
  x.set i e

/-- `get_degree(E, ind) = np.sum(E[:,ind])`: the in-degree of node `ind`. -/
def get_degree (g : Graph) (ind : Nat) : Int :=
  (((List.range g.n).filter (fun j => g.adj j ind)).length : Int)

/-- `x = np.array([(get_degree(E,i), -1, -1) for i in range(nb_nodes)])`. -/
def initRows (g : Graph) : List Entry :=
  (List.range g.n).map (fun i => ⟨get_degree g i, -1, -1⟩)

/-- Python's `list.reverse()` reverses the list in place and returns `None`.
This models the *returned* value, which the source mistakenly tests for
truthiness (`if not free_nodes.reverse():`) and iterates
(`for ind in neigh.reverse():`). -/
def pyReverseReturn {α : Type} (_l : List α) : Option Unit :=
  none

/-- Python's stable ascending `sorted(ids, key=lambda id: priority[id])`. -/
def sortByPrio (g : Graph) (ids : List Nat) : List Nat :=
  List.insertionSort (fun a b => g.priority a ≤ g.priority b) ids

/-- `free_nodes`: the indices with `x[:,0] == 0` (ascending, as produced by
`np.argwhere`), stably sorted by ascending priority. -/
def free_nodes (g : Graph) : List Nat :=
  sortByPrio g ((List.range g.n).filter (fun i => get_degree g i == 0))

/-- The label-assignment loop of `initialize_x`
(`for i in free_nodes: x[i][1] = label; x[i][2] = 0; label += 1`).
Dead code in the source: the guard `if not free_nodes.reverse():` always
takes the early return, because `list.reverse()` returns `None`. -/
def assignInit : List Entry → List Nat → Int → List Entry
  | x, [], _ => x
  | x, i :: is, label =>
      assignInit (setE x i ⟨(getE x i).deg, label, 0⟩) is (label + 1)

/-- `Kahn.initialize_x`.  For a 0-node graph, `np.argwhere(x[:,0]==0)` on the
empty array raises `IndexError`.  Otherwise the rows are built, and the guard
`if not free_nodes.reverse():` is always true (`not None`), so the function
returns with every label still `-1` and every lifecycle still `-1`; the
assignment loop below the guard is unreachable. -/
def initialize_x (g : Graph) : PyResult (List Entry) :=
  if g.n == 0 then .raised .indexError []
  else
    let x := initRows g
    match pyReverseReturn (free_nodes g) with
    | none => .ok x
    | some _ => .ok (assignInit x (free_nodes g).reverse 1)

/-- The label column `x[:,1]`. -/
def labels (x : List Entry) : List Int :=
  x.map Entry.label

/-- The lifecycle column `x[:,2]`. -/
def lifes (x : List Entry) : List Int :=
  x.map Entry.life

/-- `decode_last_state(x) = x[:,1]`. -/
def decode_last_state (x : List Entry) : List Int :=
  labels x

/-- `np.amax`; raises `ValueError` (here: `none`) on an empty array. -/
def amax : List Int → Option Int
  | [] => none
  | a :: as => some (as.foldl max a)

/-- `np.amin`; raises `ValueError` (here: `none`) on an empty array. -/
def amin : List Int → Option Int
  | [] => none
  | a :: as => some (as.foldl min a)

/-- `np.sum(np.where(x[:,2] == 0, 1, 0))`: the number of Ready entries. -/
def readyCount (x : List Entry) : Nat :=
  (x.filter (fun e => e.life == 0)).length

/-- `x[:,2] = 1`: force every lifecycle to Done. -/
def forceAllDone (x : List Entry) : List Entry :=
  x.map (fun e => ⟨e.deg, e.label, 1⟩)

/-- The stuck check of `iter_Kahn`:
`if np.sum(np.where(x[:,2] == 0, 1, 0))==0: x[:,2] = 1`. -/
def deadlockForce (x : List Entry) : List Entry :=
  if readyCount x == 0 then forceAllDone x else x

/-- One cell of `np.where(x[:,2] == 0, x[:,1], float('inf'))`: a Ready entry
contributes its label, any other entry contributes `+inf` (here `none`). -/
def maskedLabel (e : Entry) : Option Int :=
  if e.life == 0 then some e.label else none

/-- Strict order on label-or-infinity values (`none` plays `float('inf')`). -/
def oLT : Option Int → Option Int → Bool
  | some a, some b => decide (a < b)
  | some _, none => true
  | none, _ => false

/-- `np.argmin`: index of the first occurrence of the minimum (numpy returns
the first index in case of ties; on an all-`inf` array it returns 0). -/
def argminOpt : List (Option Int) → Nat
  | [] => 0
  | [_] => 0
  | v :: w :: l =>
      let r := argminOpt (w :: l)
      if oLT ((w :: l).getD r none) v then r + 1 else 0

/-- `node_to_free = np.argmin(np.where(x[:,2] == 0, x[:,1], float('inf')))`. -/
def node_to_free (x : List Entry) : Nat :=
  argminOpt (x.map maskedLabel)

/-- `neigh`: the out-neighbours `np.argwhere(E[node_to_free] == 1)` (ascending
node ids), stably sorted by ascending priority. -/
def neighSorted (g : Graph) (i : Nat) : List Nat :=
  sortByPrio g ((List.range g.n).filter (fun j => g.adj i j))

/-- The body of the neighbour loop of `iter_Kahn` (decrement a neighbour's
constraint count; when it reaches 0, label it and set it Ready).  Dead code
in the source: `for ind in neigh.reverse():` iterates over `None` and raises
`TypeError` before the first iteration. -/
def propagate : List Entry → Int → List Nat → List Entry
  | x, _, [] => x
  | x, nl, ind :: rest =>
      let x1 := setE x ind ⟨(getE x ind).deg - 1, (getE x ind).label, (getE x ind).life⟩
      if (getE x1 ind).deg == 0 then
        propagate (setE x1 ind ⟨0, nl, 0⟩) (nl + 1) rest
      else
        propagate x1 nl rest

/-- `Kahn.iter_Kahn`.  Computes `next_label = np.amax(x[:,1]) + 1`, asserts
`next_label >= 1`, forces all lifecycles to Done when no entry is Ready,
selects `node_to_free`, sets its lifecycle to Done (`x[node_to_free, 2] = 1`),
and then reaches `for ind in neigh.reverse():`, which iterates over `None`
and raises `TypeError` — so the call never returns normally: it raises either
`AssertionError` (state unchanged) or `TypeError` (state already mutated). -/
def iter_Kahn (g : Graph) (x : List Entry) : PyResult (List Entry) :=
  match amax (labels x) with
  | none => .raised .valueError x
  | some m =>
      if 1 ≤ m + 1 then
        let x1 := deadlockForce x
        let nf := node_to_free x1
        let x2 := setE x1 nf ⟨(getE x1 nf).deg, (getE x1 nf).label, 1⟩
        match pyReverseReturn (neighSorted g nf) with
        | none => .raised .typeError x2
        | some _ => .ok (propagate x2 (m + 1) (neighSorted g nf).reverse)
      else .raised .assertionError x

/-- The `while np.amin(x[:,2]) < 1:` loop of `Kahn.run`, with explicit fuel
(`none` = the loop has not terminated within the given fuel; the source loop
has no bound of its own). -/
def runLoop (g : Graph) :
    Nat → List Entry → List (List Entry) →
    Option (PyResult (List (List Entry) × List Int))
  | 0, _, _ => none
  | fuel + 1, x, history =>
      match amin (lifes x) with
      | none => some (.raised .valueError x)
      | some m =>
          if m < 1 then
            match iter_Kahn g x with
            | .ok x' => runLoop g fuel x' (history ++ [x'])
            | .raised e xe => some (.raised e xe)
          else some (.ok (history, decode_last_state x))

/-- `Kahn.run`: initialize, record the first snapshot, loop, and return
`(history, decode_last_state x)`.  Snapshots are values here, so the
`x.copy()` of the source is the identity of the embedding. -/
def run (g : Graph) (fuel : Nat) :
    Option (PyResult (List (List Entry) × List Int)) :=
  match initialize_x g with
  | .raised e xe => some (.raised e xe)
  | .ok x => runLoop g fuel x [x]

/-! ### Concrete graphs and states used to exercise the engine -/

/-- A single isolated node (the spec's Scenario D). -/
def oneNodeG : Graph :=
  ⟨1, fun _ _ => false, fun _ => 0⟩

/-- The chain `0 → 1 → 2`, all priorities 0 (the spec's Scenario A). -/
def chainG : Graph :=
  ⟨3, fun i j => (i == 0 && j == 1) || (i == 1 && j == 2), fun _ => 0⟩

/-- The fork `0 → 1`, `0 → 2` with `priority 1 = 0 < priority 2 = 1`. -/
def forkG : Graph :=
  ⟨3, fun i j => (i == 0 && j == 1) || (i == 0 && j == 2),
   fun i => if i == 2 then 1 else 0⟩

/-- A single edge `0 → 1`. -/
def edgeG : Graph :=
  ⟨2, fun i j => i == 0 && j == 1, fun _ => 0⟩

/-- Node 0 isolated; nodes 1 and 2 form a dependency cycle. -/
def cycG : Graph :=
  ⟨3, fun i j => (i == 1 && j == 2) || (i == 2 && j == 1), fun _ => 0⟩

/-- Two isolated nodes. -/
def twoG : Graph :=
  ⟨2, fun _ _ => false, fun _ => 0⟩

/-- Two isolated nodes again, written with pointwise-equal but syntactically
different fields (used to exercise determinism across equal Graph Views). -/
def twoG' : Graph :=
  ⟨2, fun _ _ => false || false, fun _ => 0 + 0⟩

/-- Both nodes of `twoG` Ready, node 1 carrying the smaller label. -/
def xTwoReady : List Entry :=
  [⟨0, 2, 0⟩, ⟨0, 1, 0⟩]

end KahnModel

namespace KahnModel

/-! ### The extended label order (`none` plays the role of `float('inf')`) -/

theorem oLT_irrefl (a : Option Int) : oLT a a = false := by
  cases a <;> simp [oLT]

theorem oLT_asymm {a b : Option Int} (h : oLT a b = true) : oLT b a = false := by
  cases a <;> cases b <;> simp_all [oLT]
  omega

theorem oLT_cross {a m v : Option Int} (h1 : oLT a v = true) (h2 : oLT a m = false) :
    oLT m v = true := by
  cases a <;> cases m <;> cases v <;> simp_all [oLT]
  omega

/-! ### `np.argmin` over masked labels: first index of the minimum -/

theorem argminOpt_lt_length : ∀ (l : List (Option Int)), l ≠ [] → argminOpt l < l.length
  | [], h => absurd rfl h
  | [_], _ => by simp [argminOpt]
  | v :: w :: l, _ => by
      have ih := argminOpt_lt_length (w :: l) (by simp)
      simp only [argminOpt, List.length_cons] at ih ⊢
      cases h : oLT ((w :: l).getD (argminOpt (w :: l)) none) v
      · rw [if_neg Bool.false_ne_true]; omega
      · rw [if_pos rfl]; omega

theorem argminOpt_not_lt : ∀ (l : List (Option Int)) (j : Nat), j < l.length →
    oLT (l.getD j none) (l.getD (argminOpt l) none) = false
  | [], j, hj => by simp at hj
  | [v], 0, _ => by simpa [argminOpt] using oLT_irrefl v
  | [_], j + 1, hj => by simp at hj
  | v :: w :: l, j, hj => by
      have ih := fun k hk => argminOpt_not_lt (w :: l) k hk
      simp only [argminOpt]
      cases h : oLT ((w :: l).getD (argminOpt (w :: l)) none) v with
      | true =>
          rw [if_pos rfl]
          cases j with
          | zero => simpa using oLT_asymm h
          | succ k => simpa using ih k (by simpa using hj)
      | false =>
          rw [if_neg Bool.false_ne_true]
          cases j with
          | zero => simpa using oLT_irrefl v
          | succ k =>
              simp only [List.getD_cons_succ, List.getD_cons_zero]
              cases hkv : oLT ((w :: l).getD k none) v with
              | false => rfl
              | true =>
                  have hc := oLT_cross hkv (ih k (by simpa using hj))
                  rw [hc] at h
                  exact absurd h (by simp)

theorem argminOpt_first : ∀ (l : List (Option Int)) (j : Nat), j < argminOpt l →
    oLT (l.getD (argminOpt l) none) (l.getD j none) = true
  | [], j, hj => by simp [argminOpt] at hj
  | [_], j, hj => by simp [argminOpt] at hj
  | v :: w :: l, j, hj => by
      have ih := fun k hk => argminOpt_first (w :: l) k hk
      simp only [argminOpt] at hj ⊢
      cases h : oLT ((w :: l).getD (argminOpt (w :: l)) none) v with
      | false =>
          rw [h, if_neg Bool.false_ne_true] at hj
          simp at hj
      | true =>
          rw [h, if_pos rfl] at hj
          rw [if_pos rfl]
          cases j with
          | zero => simpa using h
          | succ k => simpa using ih k (by omega)

/-! ### `np.amax` / `np.amin` -/

theorem le_foldl_max : ∀ (l : List Int) (b : Int), b ≤ l.foldl max b
  | [], b => le_refl b
  | c :: l, b => le_trans (le_max_left b c) (le_foldl_max l (max b c))

theorem mem_le_foldl_max : ∀ (l : List Int) (b a : Int), a ∈ l → a ≤ l.foldl max b
  | [], _, a, h => absurd h (List.not_mem_nil a)
  | c :: l, b, a, h => by
      rcases List.mem_cons.mp h with rfl | h'
      · exact le_trans (le_max_right b a) (le_foldl_max l (max b a))
      · exact mem_le_foldl_max l (max b c) a h'

theorem amax_spec : ∀ (l : List Int) (a : Int), a ∈ l → ∃ m, amax l = some m ∧ a ≤ m
  | [], a, h => absurd h (List.not_mem_nil a)
  | c :: l, a, h => by
      refine ⟨l.foldl max c, rfl, ?_⟩
      rcases List.mem_cons.mp h with rfl | h'
      · exact le_foldl_max l a
      · exact mem_le_foldl_max l c a h'

theorem foldl_max_replicate : ∀ (k : Nat) (c : Int), (List.replicate k c).foldl max c = c
  | 0, _ => rfl
  | k + 1, c => by
      simpa [List.replicate_succ, max_self] using foldl_max_replicate k c

theorem amax_replicate (k : Nat) (c : Int) :
    amax (List.replicate (k + 1) c) = some c := by
  simp [List.replicate_succ, amax, foldl_max_replicate]

theorem foldl_min_replicate : ∀ (k : Nat) (c : Int), (List.replicate k c).foldl min c = c
  | 0, _ => rfl
  | k + 1, c => by
      simpa [List.replicate_succ, min_self] using foldl_min_replicate k c

theorem amin_replicate (k : Nat) (c : Int) :
    amin (List.replicate (k + 1) c) = some c := by
  simp [List.replicate_succ, amin, foldl_min_replicate]

end KahnModel

namespace KahnModel

/-! ### State-vector indexing -/

theorem getE_eq_getElem (x : List Entry) (i : Nat) (h : i < x.length) :
    getE x i = x[i] :=
  List.getD_eq_getElem x ⟨0, 0, 0⟩ h

theorem getE_setE_self (x : List Entry) (i : Nat) (e : Entry) (h : i < x.length) :
    getE (setE x i e) i = e := by
  rw [getE_eq_getElem _ _ (by simpa [setE] using h)]
  simp [setE]

theorem length_setE (x : List Entry) (i : Nat) (e : Entry) :
    (setE x i e).length = x.length := by
  simp [setE]

theorem length_forceAllDone (x : List Entry) :
    (forceAllDone x).length = x.length := by
  simp [forceAllDone]

theorem length_deadlockForce (x : List Entry) :
    (deadlockForce x).length = x.length := by
  unfold deadlockForce
  split
  · exact length_forceAllDone x
  · rfl

/-! ### The selection `node_to_free` -/

theorem getD_map_maskedLabel (x : List Entry) (j : Nat) (hj : j < x.length) :
    (x.map maskedLabel).getD j none = maskedLabel (getE x j) := by
  rw [List.getD_eq_getElem _ _ (by simpa using hj), List.getElem_map,
      getE_eq_getElem x j hj]

theorem node_to_free_lt (x : List Entry) (hx : x ≠ []) :
    node_to_free x < x.length := by
  have h := argminOpt_lt_length (x.map maskedLabel) (by simpa using hx)
  simpa [node_to_free] using h

theorem node_to_free_not_lt (x : List Entry) (j : Nat) (hj : j < x.length) :
    oLT (maskedLabel (getE x j)) (maskedLabel (getE x (node_to_free x))) = false := by
  have hx : x ≠ [] := by rintro rfl; simp at hj
  have h := argminOpt_not_lt (x.map maskedLabel) j (by simpa using hj)
  rw [show argminOpt (x.map maskedLabel) = node_to_free x from rfl] at h
  rwa [getD_map_maskedLabel x j hj,
       getD_map_maskedLabel x _ (node_to_free_lt x hx)] at h

theorem node_to_free_first (x : List Entry) (j : Nat) (hj : j < node_to_free x) :
    oLT (maskedLabel (getE x (node_to_free x))) (maskedLabel (getE x j)) = true := by
  have hx : x ≠ [] := by rintro rfl; simp [node_to_free, argminOpt] at hj
  have h := argminOpt_first (x.map maskedLabel) j (by simpa [node_to_free] using hj)
  rw [show argminOpt (x.map maskedLabel) = node_to_free x from rfl] at h
  rwa [getD_map_maskedLabel x _ (node_to_free_lt x hx),
       getD_map_maskedLabel x j (lt_trans hj (node_to_free_lt x hx))] at h

theorem maskedLabel_some {e : Entry} {v : Int} (h : maskedLabel e = some v) :
    e.life = 0 ∧ e.label = v := by
  unfold maskedLabel at h
  split at h
  · next h0 => exact ⟨by simpa using h0, by simpa using h⟩
  · simp at h

theorem maskedLabel_of_ready {e : Entry} (h : e.life = 0) :
    maskedLabel e = some e.label := by
  simp [maskedLabel, h]

theorem node_to_free_ready (x : List Entry) (i : Nat) (hi : i < x.length)
    (hr : (getE x i).life = 0) : (getE x (node_to_free x)).life = 0 := by
  have h := node_to_free_not_lt x i hi
  rw [maskedLabel_of_ready hr] at h
  cases hm : maskedLabel (getE x (node_to_free x)) with
  | none => rw [hm] at h; simp [oLT] at h
  | some v => exact (maskedLabel_some hm).1

/-! ### The Ready count and the stuck branch -/

theorem readyCount_ne_zero (x : List Entry) (i : Nat) (hi : i < x.length)
    (hr : (getE x i).life = 0) : readyCount x ≠ 0 := by
  have hx : x[i].life = 0 := by rw [← getE_eq_getElem x i hi]; exact hr
  have hmem : x[i] ∈ x.filter (fun e => e.life == 0) :=
    List.mem_filter.mpr ⟨List.getElem_mem _, by simp [hx]⟩
  intro h0
  rw [readyCount, List.length_eq_zero] at h0
  rw [h0] at hmem
  exact List.not_mem_nil _ hmem

theorem deadlockForce_of_ready (x : List Entry) (i : Nat) (hi : i < x.length)
    (hr : (getE x i).life = 0) : deadlockForce x = x := by
  have h := readyCount_ne_zero x i hi hr
  simp [deadlockForce, h]

/-! ### The initial state -/

theorem labels_initRows (g : Graph) :
    labels (initRows g) = List.replicate g.n (-1) := by
  unfold labels initRows
  rw [List.map_map]
  have h : (Entry.label ∘ fun i => (⟨get_degree g i, -1, -1⟩ : Entry)) =
      fun _ => (-1 : Int) := rfl
  rw [h, List.map_const', List.length_range]

theorem lifes_initRows (g : Graph) :
    lifes (initRows g) = List.replicate g.n (-1) := by
  unfold lifes initRows
  rw [List.map_map]
  have h : (Entry.life ∘ fun i => (⟨get_degree g i, -1, -1⟩ : Entry)) =
      fun _ => (-1 : Int) := rfl
  rw [h, List.map_const', List.length_range]

theorem initialize_x_of_pos (g : Graph) (h : 1 ≤ g.n) :
    initialize_x g = .ok (initRows g) := by
  have h0 : (g.n == 0) = false := by simp; omega
  simp [initialize_x, h0, pyReverseReturn]

theorem iter_Kahn_initRows (g : Graph) (hn : 1 ≤ g.n) :
    iter_Kahn g (initRows g) = .raised .assertionError (initRows g) := by
  obtain ⟨k, hk⟩ : ∃ k, g.n = k + 1 := ⟨g.n - 1, by omega⟩
  have h1 : amax (labels (initRows g)) = some (-1) := by
    rw [labels_initRows, hk]; exact amax_replicate k (-1)
  unfold iter_Kahn
  rw [h1]
  norm_num

end KahnModel

namespace KahnModel

/-! ### Claim theorems -/

/-- C1: the topological-validity and permutation properties of FinalLabels are
claimed "for every graph on which a run completes without deadlock" — but no
run ever completes: on the chain `0 → 1 → 2` (the spec's Scenario A, whose
intended FinalLabels are `[1, 2, 3]`), `run` raises `AssertionError` on its
first loop iteration, so no FinalLabels are produced at all. -/
theorem run_chain_raises_no_final_labels :
    run chainG 5 =
      some (.raised .assertionError [⟨0, -1, -1⟩, ⟨1, -1, -1⟩, ⟨1, -1, -1⟩]) := by
  decide

/-- C2: on the single isolated node (in-degree 0), the Initializer does compute
the free list `[0]`, but the guard `if not free_nodes.reverse():` is always
true, so it returns early: node 0 keeps `label = -1` and lifecycle Blocked
(`-1`) instead of receiving label 1 and lifecycle Ready. -/
theorem initialize_x_assigns_no_labels :
    free_nodes oneNodeG = [0] ∧
    initialize_x oneNodeG = .ok [⟨0, -1, -1⟩] := by
  decide

/-- C3: for every graph with at least one node, `run` never returns normally:
`initialize_x` takes the early-return branch guarded by
`not free_nodes.reverse()` (always true, since `list.reverse()` returns
`None`), leaving every row `(in-degree, -1, -1)` with no label assigned; the
first `iter_Kahn` then computes `next_label = max(label) + 1 = 0`, the
assertion `next_label >= 1` fails, and `run` raises `AssertionError` on its
first loop iteration. -/
theorem run_raises_assertion_first_iteration (g : Graph) (fuel : Nat)
    (hn : 1 ≤ g.n) (hf : 1 ≤ fuel) :
    initialize_x g = .ok (initRows g) ∧
    (∀ i, i < g.n → getE (initRows g) i = ⟨get_degree g i, -1, -1⟩) ∧
    run g fuel = some (.raised .assertionError (initRows g)) := by
  obtain ⟨k, hk⟩ : ∃ k, g.n = k + 1 := ⟨g.n - 1, by omega⟩
  refine ⟨initialize_x_of_pos g hn, ?_, ?_⟩
  · intro i hi
    have hlen : i < (initRows g).length := by simp [initRows, hi]
    rw [getE_eq_getElem _ _ hlen]
    simp [initRows]
  · obtain ⟨f, rfl⟩ : ∃ f, fuel = f + 1 := ⟨fuel - 1, by omega⟩
    have hmin : amin (lifes (initRows g)) = some (-1) := by
      rw [lifes_initRows, hk]; exact amin_replicate k (-1)
    unfold run
    rw [initialize_x_of_pos g hn]
    show runLoop g (f + 1) (initRows g) [initRows g] = _
    simp only [runLoop, hmin]
    rw [if_pos (by norm_num : (-1 : Int) < 1)]
    simp only [iter_Kahn_initRows g hn]

theorem run_raises_assertion_first_iteration_witness :
    initialize_x oneNodeG = .ok (initRows oneNodeG) ∧
    (∀ i, i < oneNodeG.n →
      getE (initRows oneNodeG) i = ⟨get_degree oneNodeG i, -1, -1⟩) ∧
    run oneNodeG 1 = some (.raised .assertionError (initRows oneNodeG)) :=
  run_raises_assertion_first_iteration oneNodeG 1 (by decide) (by decide)

/-- C4: when at least one entry is Ready (and, as in any state where labels
have actually been issued, every Ready entry carries a label `≥ 1`, which is
what makes the `next_label` assertion pass), `iter_Kahn` selects among the
Ready entries the one with the smallest label — ties broken by the smallest
node id, because `np.argmin` returns the first minimising index — and the
state at the moment the call ends has exactly that node's lifecycle set to
Done (`1`), every other entry being untouched. -/
theorem iter_Kahn_selects_min_ready (g : Graph) (x : List Entry) (i : Nat)
    (hi : i < x.length) (hr : (getE x i).life = 0)
    (hl : ∀ j, j < x.length → (getE x j).life = 0 → 1 ≤ (getE x j).label) :
    node_to_free x < x.length ∧
    (getE x (node_to_free x)).life = 0 ∧
    (∀ j, j < x.length → (getE x j).life = 0 →
      (getE x (node_to_free x)).label ≤ (getE x j).label) ∧
    (∀ j, j < x.length → (getE x j).life = 0 →
      (getE x j).label = (getE x (node_to_free x)).label → node_to_free x ≤ j) ∧
    iter_Kahn g x = .raised .typeError
      (setE x (node_to_free x)
        ⟨(getE x (node_to_free x)).deg, (getE x (node_to_free x)).label, 1⟩) := by
  have hx : x ≠ [] := by rintro rfl; simp at hi
  have hnf : node_to_free x < x.length := node_to_free_lt x hx
  have hready : (getE x (node_to_free x)).life = 0 := node_to_free_ready x i hi hr
  refine ⟨hnf, hready, ?_, ?_, ?_⟩
  · intro j hj hjr
    have h := node_to_free_not_lt x j hj
    rw [maskedLabel_of_ready hjr, maskedLabel_of_ready hready] at h
    simp [oLT] at h
    omega
  · intro j hj hjr heq
    by_contra hlt
    push_neg at hlt
    have h := node_to_free_first x j hlt
    rw [maskedLabel_of_ready hjr, maskedLabel_of_ready hready] at h
    simp [oLT] at h
    omega
  · have hlab : (getE x i).label ∈ labels x := by
      rw [getE_eq_getElem x i hi]
      exact List.mem_map_of_mem Entry.label (List.getElem_mem _)
    obtain ⟨m, hm, him⟩ := amax_spec (labels x) _ hlab
    have h1m : (1 : Int) ≤ m + 1 := by
      have := hl i hi hr
      omega
    have hdf : deadlockForce x = x := deadlockForce_of_ready x i hi hr
    unfold iter_Kahn
    simp only [hm]
    rw [if_pos h1m, hdf]
    rfl

theorem iter_Kahn_selects_min_ready_witness :
    node_to_free xTwoReady < xTwoReady.length ∧
    (getE xTwoReady (node_to_free xTwoReady)).life = 0 ∧
    (∀ j, j < xTwoReady.length → (getE xTwoReady j).life = 0 →
      (getE xTwoReady (node_to_free xTwoReady)).label ≤ (getE xTwoReady j).label) ∧
    (∀ j, j < xTwoReady.length → (getE xTwoReady j).life = 0 →
      (getE xTwoReady j).label = (getE xTwoReady (node_to_free xTwoReady)).label →
      node_to_free xTwoReady ≤ j) ∧
    iter_Kahn twoG xTwoReady = .raised .typeError
      (setE xTwoReady (node_to_free xTwoReady)
        ⟨(getE xTwoReady (node_to_free xTwoReady)).deg,
         (getE xTwoReady (node_to_free xTwoReady)).label, 1⟩) :=
  iter_Kahn_selects_min_ready twoG xTwoReady 0 (by decide) (by decide) (by decide)

/-- C5: on the fork `0 → 1`, `0 → 2` with `priority 1 = 0 < priority 2 = 1`
and node 0 Ready with label 1, finalizing node 0 should hand labels 2 and 3
to nodes 1 and 2 (in ascending-priority order) and set them Ready; instead
the step raises `TypeError` iterating `neigh.reverse()` (which is `None`),
leaving both dependents unlabeled (`-1`) and Blocked. -/
theorem iter_fork_assigns_no_labels :
    iter_Kahn forkG [⟨0, 1, 0⟩, ⟨1, -1, -1⟩, ⟨1, -1, -1⟩] =
      .raised .typeError [⟨0, 1, 1⟩, ⟨1, -1, -1⟩, ⟨1, -1, -1⟩] := by
  decide

/-- C6: in a deadlocked state (node 0 Done with label 1, nodes 1 and 2 a
Blocked dependency cycle) the code does force every lifecycle to Done, but it
does not stop there: it still runs the selection (`np.argmin` over an
all-`inf` row picks node 0) and then raises `TypeError` at
`neigh.reverse()`, so the exception propagates out of the loop and History
and FinalLabels are never returned to the caller. -/
theorem iter_deadlock_raises :
    iter_Kahn cycG [⟨0, 1, 1⟩, ⟨1, -1, -1⟩, ⟨1, -1, -1⟩] =
      .raised .typeError [⟨0, 1, 1⟩, ⟨1, -1, 1⟩, ⟨1, -1, 1⟩] := by
  decide

/-- C7: on the edge `0 → 1` with node 0 Ready (label 1) and node 1 Blocked
with one remaining constraint, the step should decrement node 1's
`remaining_constraints` from 1 to 0; instead `TypeError` is raised before the
decrement loop runs, so node 1's constraint count is still 1 in the state the
exception leaves behind. -/
theorem iter_edge_no_decrement :
    iter_Kahn edgeG [⟨0, 1, 0⟩, ⟨1, -1, -1⟩] =
      .raised .typeError [⟨0, 1, 1⟩, ⟨1, -1, -1⟩] ∧
    (getE [(⟨0, 1, 1⟩ : Entry), ⟨1, -1, -1⟩] 1).deg = 1 := by
  decide

/-- C8: `run` on the single isolated node (the spec's Scenario D, which should
produce a History of length 2) raises `AssertionError` instead, so no History
sequence is ever returned to the caller. -/
theorem run_returns_no_history :
    run oneNodeG 3 = some (.raised .assertionError [⟨0, -1, -1⟩]) := by
  decide

/-- C9: the run outcome is a function of the Graph View alone: two graphs
with equal node count, pointwise-equal adjacency and pointwise-equal
priorities give equal outcomes for every fuel.  (On this code that common
outcome is the raised `AssertionError`: no History or FinalLabels are ever
produced to compare.) -/
theorem run_deterministic (g1 g2 : Graph) (fuel : Nat) (hn : g1.n = g2.n)
    (ha : ∀ i j, g1.adj i j = g2.adj i j)
    (hp : ∀ i, g1.priority i = g2.priority i) :
    run g1 fuel = run g2 fuel := by
  have hg : g1 = g2 := by
    obtain ⟨n1, a1, p1⟩ := g1
    obtain ⟨n2, a2, p2⟩ := g2
    simp only [Graph.mk.injEq]
    exact ⟨hn, funext fun i => funext fun j => ha i j, funext hp⟩
  rw [hg]

theorem run_deterministic_witness : run twoG 2 = run twoG' 2 :=
  run_deterministic twoG twoG' 2 rfl (fun _ _ => rfl) (fun _ => rfl)

/-- C10: `iter_Kahn` is not atomic on failure: whenever the `next_label`
assertion passes, the call raises `TypeError` at `for ind in neigh.reverse():`
— but only after the selected node's lifecycle has already been set to Done,
so the state carried by the exception has that lifecycle equal to 1, and
(whenever some entry was Ready) it differs from the input state. -/
theorem iter_Kahn_not_atomic (g : Graph) (x : List Entry) (m : Int)
    (hm : amax (labels x) = some m) (h0 : 0 ≤ m) :
    ∃ x', iter_Kahn g x = .raised .typeError x' ∧
      (getE x' (node_to_free (deadlockForce x))).life = 1 ∧
      ((∃ i, i < x.length ∧ (getE x i).life = 0) → x' ≠ x) := by
  have hx : x ≠ [] := by rintro rfl; simp [labels, amax] at hm
  have h1m : (1 : Int) ≤ m + 1 := by omega
  have hdx : deadlockForce x ≠ [] := by
    intro h
    have hlen := length_deadlockForce x
    rw [h] at hlen
    exact hx (List.length_eq_zero.mp hlen.symm)
  have hnf : node_to_free (deadlockForce x) < (deadlockForce x).length :=
    node_to_free_lt _ hdx
  refine ⟨setE (deadlockForce x) (node_to_free (deadlockForce x))
      ⟨(getE (deadlockForce x) (node_to_free (deadlockForce x))).deg,
       (getE (deadlockForce x) (node_to_free (deadlockForce x))).label, 1⟩,
      ?_, ?_, ?_⟩
  · unfold iter_Kahn
    simp only [hm]
    rw [if_pos h1m]
    rfl
  · rw [getE_setE_self _ _ _ hnf]
  · rintro ⟨i, hi, hr⟩
    have hdf : deadlockForce x = x := deadlockForce_of_ready x i hi hr
    rw [hdf]
    intro hc
    have hr0 : (getE x (node_to_free x)).life = 0 := node_to_free_ready x i hi hr
    have hnfx : node_to_free x < x.length := node_to_free_lt x hx
    have h1 := getE_setE_self x (node_to_free x)
        ⟨(getE x (node_to_free x)).deg, (getE x (node_to_free x)).label, 1⟩ hnfx
    rw [hc] at h1
    have h2 : (getE x (node_to_free x)).life = 1 := by rw [h1]
    omega

theorem iter_Kahn_not_atomic_witness :
    ∃ x', iter_Kahn twoG xTwoReady = .raised .typeError x' ∧
      (getE x' (node_to_free (deadlockForce xTwoReady))).life = 1 ∧
      ((∃ i, i < xTwoReady.length ∧ (getE xTwoReady i).life = 0) →
        x' ≠ xTwoReady) :=
  iter_Kahn_not_atomic twoG xTwoReady 2 (by decide) (by decide)

end KahnModel
